import Mathlib

/-!
Shallow embedding of the demo-app repository (a Lego "step on" simulator):

* `src/preprocess/create_tailored_data.py` — the Catalog Builder ETL:
  explode inventory rows into unit rows, left-join parts / part categories /
  colors, project columns, filter excluded categories, downsample.
* `src/app/main.py` — the Simulation Engine: foot-area physical model,
  piece-count estimate, random sampling of pieces plus a "trophy" minifig
  head, and the derived statistics (color counts, death roll, damage).

Randomness (pandas `DataFrame.sample`, `numpy.random.randint`) is embedded by
passing the random choices explicitly: the drawn index list for a sample and
the integer offset for `randint`.  Nullable dataframe cells (`NaN`) are
`Option` values.  Python floats are embedded as exact rationals `ℚ`.
-/

namespace LegoDemo

/-- One row of the persisted working dataset `lego_pile.csv`
(columns `img_url, part_name, part_cat_name, color_name, rgb`);
any cell may be null (`NaN`) after the left joins. -/
structure Row where
  img_url : Option String
  part_name : Option String
  part_cat_name : Option String
  color_name : Option String
  rgb : Option String
deriving DecidableEq, Repr

/-- One raw inventory record (`inventory_parts_reduced.csv`, projected to
`part_num, color_id, quantity, img_url` as in the source). -/
structure InvRecord where
  part_num : String
  color_id : Int
  quantity : Int
  img_url : Option String
deriving DecidableEq, Repr

/-- A unit-level piece: an inventory record after explosion, with the
`quantity` column dropped. -/
structure UnitPiece where
  part_num : String
  color_id : Int
  img_url : Option String
deriving DecidableEq, Repr

/-- One row of `parts.csv` projected to `part_num, name, part_cat_id`
(with `name` renamed to `part_name`). -/
structure Part where
  part_num : String
  part_name : String
  part_cat_id : Int
deriving DecidableEq, Repr

/-- One row of `part_categories.csv` (`id, name` with `name` renamed to
`part_cat_name`). -/
structure PartCategory where
  id : Int
  part_cat_name : String
deriving DecidableEq, Repr

/-- One row of `colors.csv` projected to `id, name, rgb` (with `name`
renamed to `color_name`). -/
structure ColorRow where
  id : Int
  color_name : String
  rgb : String
deriving DecidableEq, Repr

/-! ## Catalog Builder (src/preprocess/create_tailored_data.py) -/

/-- Embeds `np.repeat(1, q)` applied to a quantity cell: a list of `q` ones
for `q ≥ 0`, a `ValueError` for negative `q` (numpy rejects negative repeat
counts). -/
def npRepeatOne (q : Int) : Except String (List Int) :=
  if q < 0 then .error "ValueError: negative dimensions are not allowed"
  else .ok (List.replicate q.toNat 1)

/-- Drop the `quantity` column of an inventory record. -/
def toUnit (r : InvRecord) : UnitPiece :=
  { part_num := r.part_num, color_id := r.color_id, img_url := r.img_url }

/-- Embeds lines 35–38 of `create_tailored_data.py`: replace each `quantity`
cell by `np.repeat(1, quantity)`, then `.explode("quantity")` and drop the
`quantity` column.  Pandas `explode` turns an *empty* list-like into a single
row whose exploded cell is `NaN`; since the column is dropped right after,
a quantity-0 record contributes one output row identical to the input. -/
def explodeInventory : List InvRecord → Except String (List UnitPiece)
  | [] => .ok []
  | r :: rs =>
      match npRepeatOne r.quantity with
      | .error e => .error e
      | .ok reps =>
          match explodeInventory rs with
          | .error e => .error e
          | .ok rest =>
              .ok ((if reps.isEmpty then [toUnit r]
                    else reps.map fun _ => toUnit r) ++ rest)

/-- Result row of `inventory_parts.merge(parts, on="part_num", how="left")`:
the descriptive fields from `parts` are null when the key has no match. -/
structure M1 where
  part_num : String
  color_id : Int
  img_url : Option String
  part_name : Option String
  part_cat_id : Option Int
deriving DecidableEq, Repr

/-- Left-merge of unit pieces with `parts` on `part_num` (line 42): each left
row is paired with every matching right row, or kept once with null
descriptive fields when no right row matches. -/
def mergeParts (inv : List UnitPiece) (parts : List Part) : List M1 :=
  inv.flatMap fun u =>
    let ms := parts.filter fun p => p.part_num == u.part_num
    if ms.isEmpty then
      [{ part_num := u.part_num, color_id := u.color_id, img_url := u.img_url,
         part_name := none, part_cat_id := none }]
    else
      ms.map fun p =>
        { part_num := u.part_num, color_id := u.color_id, img_url := u.img_url,
          part_name := some p.part_name, part_cat_id := some p.part_cat_id }

/-- Result row after also merging `part_categories` (the right key column
`id` is dropped, `part_cat_id` from the left side is kept). -/
structure M2 where
  part_num : String
  color_id : Int
  img_url : Option String
  part_name : Option String
  part_cat_id : Option Int
  part_cat_name : Option String
deriving DecidableEq, Repr

/-- Left-merge with `part_categories` on `part_cat_id = id` (lines 45–47).
A null `part_cat_id` (from a failed parts match) matches nothing. -/
def mergeCategories (ms : List M1) (cats : List PartCategory) : List M2 :=
  ms.flatMap fun m =>
    let hits := cats.filter fun c => m.part_cat_id == some c.id
    if hits.isEmpty then
      [{ part_num := m.part_num, color_id := m.color_id, img_url := m.img_url,
         part_name := m.part_name, part_cat_id := m.part_cat_id,
         part_cat_name := none }]
    else
      hits.map fun c =>
        { part_num := m.part_num, color_id := m.color_id, img_url := m.img_url,
          part_name := m.part_name, part_cat_id := m.part_cat_id,
          part_cat_name := some c.part_cat_name }

/-- Result row after also merging `colors` (right key `id` dropped). -/
structure M3 where
  part_num : String
  color_id : Int
  img_url : Option String
  part_name : Option String
  part_cat_id : Option Int
  part_cat_name : Option String
  color_name : Option String
  rgb : Option String
deriving DecidableEq, Repr

/-- Left-merge with `colors` on `color_id = id` (lines 50–52). -/
def mergeColors (ms : List M2) (colors : List ColorRow) : List M3 :=
  ms.flatMap fun m =>
    let hits := colors.filter fun c => m.color_id == c.id
    if hits.isEmpty then
      [{ part_num := m.part_num, color_id := m.color_id, img_url := m.img_url,
         part_name := m.part_name, part_cat_id := m.part_cat_id,
         part_cat_name := m.part_cat_name, color_name := none, rgb := none }]
    else
      hits.map fun c =>
        { part_num := m.part_num, color_id := m.color_id, img_url := m.img_url,
          part_name := m.part_name, part_cat_id := m.part_cat_id,
          part_cat_name := m.part_cat_name, color_name := some c.color_name,
          rgb := some c.rgb }

/-- The three successive left joins of lines 42–52. -/
def legoPileEnriched (inv : List UnitPiece) (parts : List Part)
    (cats : List PartCategory) (colors : List ColorRow) : List M3 :=
  mergeColors (mergeCategories (mergeParts inv parts) cats) colors

/-- The column projection of lines 56–58:
`[img_url, part_name, part_cat_name, color_name, rgb]`. -/
def toRow (m : M3) : Row :=
  { img_url := m.img_url, part_name := m.part_name,
    part_cat_name := m.part_cat_name, color_name := m.color_name,
    rgb := m.rgb }

/-- Embeds lines 60–61: drop rows whose `part_cat_name` equals `"Other"`,
then drop rows whose `part_cat_name` equals `"Stickers"`.  A null category
name compares unequal to both strings and is retained, as in pandas. -/
def filterExcluded (rows : List Row) : List Row :=
  (rows.filter fun r => !(r.part_cat_name == some "Other")).filter
    fun r => !(r.part_cat_name == some "Stickers")

/-! ## Simulation Engine (src/app/main.py) -/

/-- Embeds `pandas.DataFrame.sample(n)` (`replace=False`): the random draw is
supplied as the index list `idxs`; sampling fails with a `ValueError` when
`n` is negative or exceeds the population size, exactly as pandas raises. -/
def pdSample (df : List Row) (n : Int) (idxs : List Nat) :
    Except String (List Row) :=
  if n < 0 then .error "ValueError: negative sample size"
  else if (df.length : Int) < n then
    .error "ValueError: sample larger than population"
  else .ok (idxs.filterMap fun i => df[i]?)

/-- Embeds `get_area_of_foot` (lines 25–42): foot length
`(2/3) * (shoe_size - 2)`, foot width `0.35 * foot_length`, rectangular
area `foot_length * foot_width`.  Exact rational arithmetic stands in for
Python floats. -/
def get_area_of_foot (shoe_size : ℚ) : ℚ :=
  let foot_length := (2 / 3) * (shoe_size - 2)
  let foot_width := (7 / 20) * foot_length
  foot_length * foot_width

/-- Python `int()` applied to a rational: truncation toward zero, i.e. the
ceiling for negative values and the floor otherwise. -/
def pyTrunc (q : ℚ) : Int :=
  if q < 0 then ⌈q⌉ else ⌊q⌋

/-- Embeds `get_num_legos_stepped_on` (lines 45–61): area of foot divided by
the area of one piece (`2.34 * 2.34`), doubled for two feet, truncated with
`int(...)`, plus the `randint(-10, 10)` offset passed explicitly. -/
def get_num_legos_stepped_on (shoe_size : ℚ) (offset : Int) : Int :=
  let area_of_foot := get_area_of_foot shoe_size
  let area_of_lego_block : ℚ := (117 / 50) * (117 / 50)
  let num_legos_per_foot := area_of_foot / area_of_lego_block
  pyTrunc (num_legos_per_foot * 2) + offset

/-- The eligible "trophy" subset of line 199–202: rows whose
`part_cat_name` equals `"Minifig Heads"` and whose `img_url` is non-null. -/
def minifigHeadsWithImg (ds : List Row) : List Row :=
  ds.filter fun r => r.part_cat_name == some "Minifig Heads" && r.img_url.isSome

/-- Embeds the sampling part of the `get_legos_stepped_on` atom
(lines 196–206), given the already-estimated piece count `n`: draw `n` base
rows, draw one trophy minifig head, concatenate, and report the count plus
one.  `baseIdxs` and `trophyIdx` supply the random draws.  There is no
exception handling in the source: any `ValueError` propagates. -/
def stepTrial (ds : List Row) (n : Int) (baseIdxs : List Nat)
    (trophyIdx : Nat) : Except String (List Row × Int) :=
  match pdSample ds n baseIdxs with
  | .error e => .error e
  | .ok base =>
      match pdSample (minifigHeadsWithImg ds) 1 [trophyIdx] with
      | .error e => .error e
      | .ok token => .ok (base ++ token, n + 1)

/-- Embeds the body of the `get_legos_stepped_on` atom (lines 191–209) for a
clicked step (`take_a_step` true): estimate the piece count from the shoe
size and random offset, then run the sampling trial. -/
def get_legos_stepped_on (ds : List Row) (shoe_size : ℚ) (offset : Int)
    (baseIdxs : List Nat) (trophyIdx : Nat) :
    Except String (List Row × Int) :=
  stepTrial ds (get_num_legos_stepped_on shoe_size offset) baseIdxs trophyIdx

/-- Substring containment on character lists, used to embed the pandas
`str.contains("Duplo")` test ("Duplo" has no regex metacharacters, so the
regex match is a plain case-sensitive substring search). -/
def charsContain (needle : List Char) : List Char → Bool
  | [] => needle.isEmpty
  | c :: t => needle.isPrefixOf (c :: t) || charsContain needle t

/-- Whether a (nullable) category-name cell contains `"Duplo"`.  A null cell
yields `NaN` under `str.contains`, which `.sum()` skips — i.e. it counts as
false. -/
def cellHasDuplo : Option String → Bool
  | none => false
  | some s => charsContain "Duplo".toList s.toList

/-- Embeds `calculate_damage` (lines 122–135): one point per row plus one
extra point per row whose category name contains `"Duplo"`. -/
def calculate_damage (legos_stepped_on : List Row) : Nat :=
  let base_damage := legos_stepped_on.length
  let duplo_damage :=
    legos_stepped_on.countP fun r => cellHasDuplo r.part_cat_name
  base_damage + duplo_damage

/-- Embeds the `value_counts` aggregation of `visualize_lego_colors`
(line 90): group the `color_name` column by value and count occurrences,
dropping null cells (`value_counts` default `dropna=True`).  `value_counts`
additionally orders the groups by descending count; the order of the
returned association list is irrelevant to every property proved here. -/
def colorValueCounts (rows : List Row) : List (String × Nat) :=
  let names := rows.filterMap fun r => r.color_name
  names.dedup.map fun c => (c, names.count c)

/-- Embeds `get_death_roll` (lines 105–119): keep rows whose category name
is one of `"Minifigs"`, `"Minifig Heads"`, `"Minidoll Heads"` (a null cell
is in none of them), projected to `(part_name, img_url)`. -/
def get_death_roll (rows : List Row) : List (Option String × Option String) :=
  (rows.filter fun r =>
      r.part_cat_name == some "Minifigs" ||
      r.part_cat_name == some "Minifig Heads" ||
      r.part_cat_name == some "Minidoll Heads").map
    fun r => (r.part_name, r.img_url)

/-- Embeds the featured-enemy selection of `render_death_roll`
(lines 227–236): `minifigs_vanquished.dropna()` keeps only rows with *both*
columns non-null, and `.iloc[0]` (guarded by a length check) takes the first
such row; `none` when there is no such row. -/
def featured_enemy (death_roll : List (Option String × Option String)) :
    Option (Option String × Option String) :=
  (death_roll.filter fun p => p.1.isSome && p.2.isSome).head?

/-- Modelled from the spec's words, for comparison with the code
(`featured_enemy`): the first row of the death roll that has a non-null
image reference, regardless of the part-name column. -/
def featured_enemy_claimed
    (death_roll : List (Option String × Option String)) :
    Option (Option String × Option String) :=
  (death_roll.filter fun p => p.2.isSome).head?

/-! ## Concrete rows used by witnesses and counterexamples -/

/-- A minifig-head row with an image, eligible as a trophy. -/
def rHead : Row :=
  { img_url := some "https://img/head.png", part_name := some "Minifig Head Plain",
    part_cat_name := some "Minifig Heads", color_name := some "Yellow",
    rgb := some "ffff00" }

/-- An ordinary brick row. -/
def rBrick : Row :=
  { img_url := none, part_name := some "Brick 2 x 4",
    part_cat_name := some "Bricks", color_name := some "Blue",
    rgb := some "0000ff" }

/-- A Duplo row. -/
def rDuplo : Row :=
  { img_url := none, part_name := some "Duplo Brick 2 x 2",
    part_cat_name := some "Duplo Bricks", color_name := some "Red",
    rgb := some "ff0000" }

/-- A row whose color name is null (its `color_id` had no match in the
colors table). -/
def rNoColor : Row :=
  { img_url := some "https://img/odd.png", part_name := some "Odd Part",
    part_cat_name := some "Bricks", color_name := none, rgb := none }

/-! ## Helper lemmas -/

/-- The length of a `filterMap` over an `Option`-valued projection is the
number of elements whose projection is non-null. -/
theorem length_filterMap_isSome {α β : Type} (f : α → Option β) :
    ∀ l : List α, (l.filterMap f).length = l.countP fun a => (f a).isSome
  | [] => rfl
  | a :: t => by
      cases h : f a with
      | none =>
          simp [List.filterMap_cons, h, List.countP_cons,
            length_filterMap_isSome f t]
      | some b =>
          simp [List.filterMap_cons, h, List.countP_cons,
            length_filterMap_isSome f t]

/-- Summing, over the deduplicated values of a list, the number of
occurrences of each value recovers the length of the list. -/
theorem sum_dedup_count (l : List String) :
    (l.dedup.map fun c => l.count c).sum = l.length := by
  have h := Multiset.toFinset_sum_count_eq (l : Multiset String)
  simpa [Finset.sum, Multiset.toFinset] using h

/-- An index list that stays in bounds selects exactly one row per index. -/
theorem length_filterMap_getQ (l : List Row) :
    ∀ idxs : List Nat, (∀ i ∈ idxs, i < l.length) →
      (idxs.filterMap fun i => l[i]?).length = idxs.length
  | [], _ => rfl
  | i :: t, h => by
      have hi : i < l.length := h i (List.mem_cons_self i t)
      simp only [List.filterMap_cons, List.getElem?_eq_getElem hi,
        List.length_cons]
      rw [length_filterMap_getQ l t fun j hj =>
        h j (List.mem_cons_of_mem _ hj)]

/-- Every row selected by index from a list is a member of that list. -/
theorem mem_of_mem_filterMap_getQ {l : List Row} {idxs : List Nat} {r : Row}
    (h : r ∈ idxs.filterMap fun i => l[i]?) : r ∈ l := by
  rw [List.mem_filterMap] at h
  obtain ⟨i, _, hg⟩ := h
  exact List.getElem?_mem hg

/-! ## C10 -/

/-- C10: `footArea(shoeSize)`, computed as
`footLength * footWidth` with `footLength = (2/3) * (shoeSize - 2)` and
`footWidth = 0.35 * footLength`, is monotonically non-decreasing in the
shoe size on the domain `shoeSize ≥ 2`. -/
theorem footArea_monotone (s t : ℚ) (hs : 2 ≤ s) (hst : s ≤ t) :
    get_area_of_foot s ≤ get_area_of_foot t := by
  simp only [get_area_of_foot]
  nlinarith [hs, hst]

/-- Witness for C10 at shoe sizes 2 and 3. -/
theorem footArea_monotone_witness :
    get_area_of_foot 2 ≤ get_area_of_foot 3 :=
  footArea_monotone 2 3 (by norm_num) (by norm_num)

/-! ## C2 -/

/-- C2: for every simulation result, `calculate_damage` equals the number of
rows plus the number of rows whose category name contains the substring
`"Duplo"` (case-sensitive); hence damage is at least the row count, with
equality exactly when no row's category name contains `"Duplo"`. -/
theorem damage_formula (rows : List Row) :
    calculate_damage rows =
      rows.length + rows.countP (fun r => cellHasDuplo r.part_cat_name) ∧
    rows.length ≤ calculate_damage rows ∧
    (calculate_damage rows = rows.length ↔
      ∀ r ∈ rows, cellHasDuplo r.part_cat_name = false) := by
  have hdef : calculate_damage rows =
      rows.length + rows.countP (fun r => cellHasDuplo r.part_cat_name) := rfl
  refine ⟨hdef, ?_, ?_⟩
  · rw [hdef]; exact Nat.le_add_right _ _
  · rw [hdef]
    constructor
    · intro h r hr
      have h0 : rows.countP (fun r => cellHasDuplo r.part_cat_name) = 0 := by
        omega
      simpa using List.countP_eq_zero.mp h0 r hr
    · intro h
      have h0 : rows.countP (fun r => cellHasDuplo r.part_cat_name) = 0 :=
        List.countP_eq_zero.mpr fun r hr => by simp [h r hr]
      omega

/-- Instance of C2 on the spec's own example: two Duplo rows and three brick
rows give damage `5 + 2 = 7`. -/
theorem damage_formula_example :
    calculate_damage [rDuplo, rDuplo, rBrick, rBrick, rBrick] = 7 := by
  have h := (damage_formula [rDuplo, rDuplo, rBrick, rBrick, rBrick]).1
  rw [h]; decide

/-! ## C9 -/

/-- C9: the category filter of the Catalog Builder never retains a row whose
category name is `"Other"` or `"Stickers"`, for any input distribution. -/
theorem filterExcluded_never_retains (rows : List Row) :
    ∀ r ∈ filterExcluded rows,
      r.part_cat_name ≠ some "Other" ∧ r.part_cat_name ≠ some "Stickers" := by
  intro r hr
  simp only [filterExcluded, List.mem_filter, Bool.not_eq_true', beq_eq_false_iff_ne,
    ne_eq] at hr
  exact ⟨hr.1.2, hr.2⟩

/-- Witness for C9: the brick row survives the filter and indeed has neither
excluded category name. -/
theorem filterExcluded_never_retains_witness :
    rBrick.part_cat_name ≠ some "Other" ∧
    rBrick.part_cat_name ≠ some "Stickers" :=
  filterExcluded_never_retains [rBrick] rBrick (by decide)

/-! ## C7 -/

/-- Counterexample to C7 as stated: a one-row result whose color name is
null (its color id had no match in the colors reference table) has
`value_counts` summing to 0, not to the row count 1 — `value_counts` drops
null cells. -/
theorem colorCounts_sum_counterexample :
    ((colorValueCounts [rNoColor]).map Prod.snd).sum = 0 ∧
    ([rNoColor] : List Row).length = 1 ∧
    ((colorValueCounts [rNoColor]).map Prod.snd).sum ≠
      ([rNoColor] : List Row).length := by
  refine ⟨by decide, rfl, by decide⟩

/-- C7 amended: the `value_counts` color counts sum to the number of rows
with a *non-null* color name; in particular they sum to the row count
whenever every row's color name is non-null. -/
theorem colorCounts_sum (rows : List Row) :
    ((colorValueCounts rows).map Prod.snd).sum =
      rows.countP (fun r => (r.color_name).isSome) ∧
    ((∀ r ∈ rows, (r.color_name).isSome) →
      ((colorValueCounts rows).map Prod.snd).sum = rows.length) := by
  have key : ((colorValueCounts rows).map Prod.snd).sum =
      (rows.filterMap fun r => r.color_name).length := by
    have : ((colorValueCounts rows).map Prod.snd) =
        ((rows.filterMap fun r => r.color_name).dedup.map
          fun c => (rows.filterMap fun r => r.color_name).count c) := by
      simp [colorValueCounts, Function.comp]
    rw [this, sum_dedup_count]
  constructor
  · rw [key, length_filterMap_isSome]
  · intro h
    rw [key, length_filterMap_isSome]
    exact List.countP_eq_length.mpr fun r hr => h r hr

/-- Witness for C7 (amended): on a three-row result with all color names
non-null the counts sum to 3. -/
theorem colorCounts_sum_witness :
    ((colorValueCounts [rHead, rBrick, rHead]).map Prod.snd).sum =
      ([rHead, rBrick, rHead] : List Row).length :=
  (colorCounts_sum [rHead, rBrick, rHead]).2 (by decide)

/-! ## C3 -/

/-- A concrete inventory record with quantity 0. -/
def invZero : InvRecord :=
  { part_num := "3001", color_id := 5, quantity := 0, img_url := none }

/-- A concrete inventory record with quantity 2. -/
def invTwo : InvRecord :=
  { part_num := "3002", color_id := 7, quantity := 2,
    img_url := some "https://img/p.png" }

/-- Counterexample to C3 as stated: an input row with quantity 0 produces
*one* output row, not zero — pandas `explode` turns the empty repeat list
into a single row with a null exploded cell, and the cell is then dropped.
Consequently the total output count exceeds the sum of the quantities. -/
theorem explode_zero_counterexample :
    explodeInventory [invZero] = .ok [toUnit invZero] ∧
    ([toUnit invZero] : List UnitPiece).length = 1 ∧
    ([invZero].map fun r => r.quantity.toNat).sum = 0 := by
  exact ⟨rfl, rfl, rfl⟩

/-- C3 amended: for nonnegative quantities, `explode` produces exactly `q`
output rows for each input row with quantity `q ≥ 1` and exactly one output
row for an input row with quantity 0, so the total output count equals the
sum of the quantities plus the number of zero-quantity rows. -/
theorem explode_counts (rs : List InvRecord)
    (h : ∀ r ∈ rs, 0 ≤ r.quantity) :
    explodeInventory rs =
      .ok (rs.flatMap fun r =>
        List.replicate (max r.quantity.toNat 1) (toUnit r)) ∧
    (rs.flatMap fun r =>
        List.replicate (max r.quantity.toNat 1) (toUnit r)).length =
      (rs.map fun r => r.quantity.toNat).sum +
        rs.countP (fun r => r.quantity == 0) := by
  induction rs with
  | nil => exact ⟨rfl, rfl⟩
  | cons r t ih =>
      obtain ⟨h1, h2⟩ := ih fun x hx => h x (List.mem_cons_of_mem _ hx)
      have hq : ¬ r.quantity < 0 :=
        not_lt.mpr (h r (List.mem_cons_self r t))
      constructor
      · show explodeInventory (r :: t) = _
        simp only [explodeInventory, npRepeatOne, if_neg hq, h1,
          List.flatMap_cons]
        cases hn : r.quantity.toNat with
        | zero => simp
        | succ k =>
            have hmax : max (k + 1) 1 = k + 1 := by omega
            simp [List.replicate_succ, hmax]
      · rw [List.flatMap_cons, List.length_append, List.length_replicate,
          List.map_cons, List.sum_cons, List.countP_cons, h2]
        have hiff : (r.quantity == 0) = decide (r.quantity = 0) := rfl
        by_cases h0 : r.quantity = 0
        · simp [h0]
          omega
        · have : r.quantity.toNat ≠ 0 := by
            intro hc
            exact h0 (le_antisymm (Int.toNat_eq_zero.mp hc)
              (h r (List.mem_cons_self r t)))
          simp [hiff, h0]
          omega

/-- Witness for C3 (amended) on a two-record inventory: quantities 2 and 0
give 2 + 1 = 3 output rows. -/
theorem explode_counts_witness :
    explodeInventory [invTwo, invZero] =
      .ok ([invTwo, invZero].flatMap fun r =>
        List.replicate (max r.quantity.toNat 1) (toUnit r)) ∧
    ([invTwo, invZero].flatMap fun r =>
        List.replicate (max r.quantity.toNat 1) (toUnit r)).length =
      ([invTwo, invZero].map fun r => r.quantity.toNat).sum +
        [invTwo, invZero].countP (fun r => r.quantity == 0) :=
  explode_counts [invTwo, invZero] (by decide)

/-! ## C1 -/

/-- C1: a successful `stepOn` trial with estimated piece count `n` returns
the base draw of the `n` in-bounds, pairwise-distinct indices concatenated
with one trophy row taken from the subset of the dataset whose category is
`"Minifig Heads"` with a non-null image; the result has `n + 1` rows and
the reported piece count is `n + 1`.  The base rows all come from the
dataset and the trophy row comes from the eligible subset. -/
theorem stepOn_success (ds : List Row) (shoe : ℚ) (off n : Int)
    (bIdxs : List Nat) (tIdx : Nat)
    (_hoff : -10 ≤ off ∧ off < 10)
    (hn : get_num_legos_stepped_on shoe off = n)
    (hn0 : 0 ≤ n) (hnle : n ≤ (ds.length : Int))
    (hlen : bIdxs.length = n.toNat) (_hnd : bIdxs.Nodup)
    (hb : ∀ i ∈ bIdxs, i < ds.length)
    (ht : tIdx < (minifigHeadsWithImg ds).length) :
    get_legos_stepped_on ds shoe off bIdxs tIdx =
      .ok ((bIdxs.filterMap fun i => ds[i]?) ++
        [(minifigHeadsWithImg ds)[tIdx]], n + 1) ∧
    ((bIdxs.filterMap fun i => ds[i]?) ++
        [(minifigHeadsWithImg ds)[tIdx]]).length = n.toNat + 1 ∧
    (∀ r ∈ bIdxs.filterMap fun i => ds[i]?, r ∈ ds) ∧
    (minifigHeadsWithImg ds)[tIdx] ∈ minifigHeadsWithImg ds ∧
    (minifigHeadsWithImg ds)[tIdx].part_cat_name = some "Minifig Heads" ∧
    (minifigHeadsWithImg ds)[tIdx].img_url.isSome = true := by
  have hbase : pdSample ds n bIdxs = .ok (bIdxs.filterMap fun i => ds[i]?) := by
    rw [pdSample, if_neg (not_lt.mpr hn0), if_neg (not_lt.mpr hnle)]
  have htok : pdSample (minifigHeadsWithImg ds) 1 [tIdx] =
      .ok [(minifigHeadsWithImg ds)[tIdx]] := by
    rw [pdSample, if_neg (by norm_num)]
    rw [if_neg (by omega)]
    simp [List.filterMap_cons, List.getElem?_eq_getElem ht]
  have htmem : (minifigHeadsWithImg ds)[tIdx] ∈ minifigHeadsWithImg ds :=
    List.getElem_mem ht
  have htprop := List.mem_filter.mp htmem
  refine ⟨?_, ?_, ?_, htmem, ?_, ?_⟩
  · rw [get_legos_stepped_on, hn]
    simp only [stepTrial, hbase, htok]
  · rw [List.length_append, length_filterMap_getQ ds bIdxs hb, hlen]
    rfl
  · exact fun r hr => mem_of_mem_filterMap_getQ hr
  · have := htprop.2
    simp only [Bool.and_eq_true, beq_iff_eq] at this
    exact this.1
  · have := htprop.2
    simp only [Bool.and_eq_true, beq_iff_eq] at this
    exact this.2

/-- Witness for C1: a two-row dataset, shoe size 2, offset 0 (so `n = 0`),
an empty base draw and trophy index 0 give the one-row result `[rHead]`
with reported count 1. -/
theorem stepOn_success_witness :
    get_legos_stepped_on [rBrick, rHead] 2 0 [] 0 = .ok ([rHead], 1) := by
  have h := stepOn_success [rBrick, rHead] 2 0 0 [] 0 (by decide)
    (by norm_num [get_num_legos_stepped_on, get_area_of_foot, pyTrunc])
    (by decide) (by decide) rfl (by decide) (by decide) (by decide)
  rw [h.1]
  rfl

/-! ## C4 -/

/-- C4 (recording the code bug): the source never clamps a negative
estimate.  At shoe size 2 with the minimal random offset `-10` the
estimated piece count is `-10`, and `get_legos_stepped_on` hands that
negative size straight to the draw, which raises the sampling error that
the claim calls unreachable; no trial result is produced. -/
theorem stepOn_negative_not_clamped :
    get_num_legos_stepped_on 2 (-10) = -10 ∧
    get_legos_stepped_on [rBrick, rHead] 2 (-10) [] 0 =
      .error "ValueError: negative sample size" := by
  have hn : get_num_legos_stepped_on 2 (-10) = -10 := by
    norm_num [get_num_legos_stepped_on, get_area_of_foot, pyTrunc]
  refine ⟨hn, ?_⟩
  rw [get_legos_stepped_on, hn]
  simp [stepTrial, pdSample]

/-! ## C6 -/

/-- Whether a simulation-engine call ended in a raised error. -/
def isError : Except String (List Row × Int) → Bool
  | .error _ => true
  | .ok _ => false

/-- Counterexample to C6 as stated: on a dataset with no eligible trophy
row, the trial does *not* return the base sample — the trophy draw raises
and the error propagates out of `get_legos_stepped_on` (the function body
has no exception handler). -/
theorem stepOn_no_trophy_counterexample :
    minifigHeadsWithImg [rBrick] = [] ∧
    get_legos_stepped_on [rBrick] 2 0 [] 0 =
      .error "ValueError: sample larger than population" := by
  refine ⟨by decide, ?_⟩
  have hn : get_num_legos_stepped_on 2 0 = 0 := by
    norm_num [get_num_legos_stepped_on, get_area_of_foot, pyTrunc]
  rw [get_legos_stepped_on, hn]
  simp [stepTrial, pdSample, minifigHeadsWithImg, rBrick]

/-- C6 amended: when the dataset has no eligible trophy row, every call of
`get_legos_stepped_on` ends in a raised error — the base sample is not
returned and nothing inside the simulation engine catches the failure
(any per-trial recovery would have to live in the external workflow
runner). -/
theorem stepOn_no_trophy_error (ds : List Row) (shoe : ℚ) (off : Int)
    (bIdxs : List Nat) (tIdx : Nat)
    (hempty : minifigHeadsWithImg ds = []) :
    isError (get_legos_stepped_on ds shoe off bIdxs tIdx) = true := by
  rw [get_legos_stepped_on]
  cases hbase : pdSample ds (get_num_legos_stepped_on shoe off) bIdxs with
  | error e => simp [stepTrial, hbase, isError]
  | ok base =>
      have htok : pdSample (minifigHeadsWithImg ds) 1 [tIdx] =
          .error "ValueError: sample larger than population" := by
        rw [pdSample, if_neg (by norm_num), if_pos (by simp [hempty])]
      simp [stepTrial, hbase, htok, isError]

/-- Witness for C6 (amended) on a one-row dataset without minifig heads. -/
theorem stepOn_no_trophy_error_witness :
    isError (get_legos_stepped_on [rBrick] 2 3 [] 0) = true :=
  stepOn_no_trophy_error [rBrick] 2 3 [] 0 (by decide)

/-! ## C8 -/

/-- A successful `find?` splits its list into a prefix of failures, the
found element, and a suffix. -/
theorem find?_split {α : Type} (p : α → Bool) :
    ∀ (l : List α) (r : α), l.find? p = some r →
      ∃ pre suf, l = pre ++ r :: suf ∧ ∀ x ∈ pre, p x = false
  | [], r, h => by simp at h
  | a :: t, r, h => by
      by_cases ha : p a
      · rw [List.find?_cons_of_pos t ha] at h
        obtain rfl : a = r := by injection h
        exact ⟨[], t, rfl, by simp⟩
      · rw [List.find?_cons_of_neg t ha] at h
        obtain ⟨pre, suf, heq, hall⟩ := find?_split p t r h
        refine ⟨a :: pre, suf, by rw [List.cons_append, heq], ?_⟩
        intro x hx
        rcases List.mem_cons.mp hx with rfl | hx
        · exact Bool.of_not_eq_true ha
        · exact hall x hx

/-- A death-roll collection in which the first row carrying an image has a
null part name: the claimed and actual featured-enemy selections differ. -/
def drSplit : List (Option String × Option String) :=
  [(none, some "https://img/a.png"),
   (some "Minifig B", some "https://img/b.png")]

/-- Counterexample to C8 as stated: `dropna()` also discards rows whose
*part name* is null, so the code returns the second row of `drSplit`
even though the first row already has a non-null image reference; the
claimed selection (first row with a non-null image, part name ignored)
returns the first row. -/
theorem featuredEnemy_counterexample :
    featured_enemy drSplit =
      some (some "Minifig B", some "https://img/b.png") ∧
    featured_enemy_claimed drSplit =
      some (none, some "https://img/a.png") ∧
    featured_enemy drSplit ≠ featured_enemy_claimed drSplit := by
  exact ⟨rfl, rfl, by decide⟩

/-- C8 amended: `featuredEnemy` is the first row, in original order, that
has *both* a non-null part name and a non-null image reference (because of
the `dropna()` over both columns), and is absent exactly when no row has
both fields non-null. -/
theorem featuredEnemy_first_complete
    (dr : List (Option String × Option String)) :
    (featured_enemy dr = none ↔
      ∀ p ∈ dr, ¬(p.1.isSome = true ∧ p.2.isSome = true)) ∧
    ∀ r, featured_enemy dr = some r →
      r ∈ dr ∧ r.1.isSome = true ∧ r.2.isSome = true ∧
      ∃ pre suf, dr = pre ++ r :: suf ∧
        ∀ p ∈ pre, ¬(p.1.isSome = true ∧ p.2.isSome = true) := by
  have hfe : featured_enemy dr =
      dr.find? fun p => p.1.isSome && p.2.isSome := by
    rw [featured_enemy, List.filter_head?]
  constructor
  · rw [hfe, List.find?_eq_none]
    constructor
    · intro h p hp
      have := h p hp
      simpa [Bool.and_eq_true] using this
    · intro h p hp
      have := h p hp
      simpa [Bool.and_eq_true] using this
  · intro r hr
    rw [hfe] at hr
    have hpred := List.find?_some hr
    rw [Bool.and_eq_true] at hpred
    obtain ⟨pre, suf, heq, hall⟩ := find?_split _ dr r hr
    refine ⟨List.mem_of_find?_eq_some hr, hpred.1, hpred.2, pre, suf, heq, ?_⟩
    intro p hp hcontra
    have := hall p hp
    simp [hcontra.1, hcontra.2] at this

/-- Witness for C8 (amended): a death roll whose only row has no image at
all yields no featured enemy. -/
theorem featuredEnemy_first_complete_witness :
    featured_enemy [((some "Headless" : Option String),
      (none : Option String))] = none :=
  (featuredEnemy_first_complete
    [(some "Headless", none)]).1.mpr (by decide)

/-! ## C5 -/

/-- A `flatMap` whose branches are all nonempty does not lose rows. -/
theorem length_le_flatMap {α β : Type} (l : List α) (f : α → List β)
    (h : ∀ a ∈ l, 1 ≤ (f a).length) : l.length ≤ (l.flatMap f).length := by
  induction l with
  | nil => simp
  | cons a t ih =>
      rw [List.flatMap_cons, List.length_append, List.length_cons]
      have h1 := h a (List.mem_cons_self a t)
      have h2 := ih fun x hx => h x (List.mem_cons_of_mem _ hx)
      omega

/-- After the parts merge, the descriptive fields from `parts` are non-null
exactly when the part identifier has a match in the parts table. -/
theorem mergeParts_mem (inv : List UnitPiece) (parts : List Part) :
    ∀ m ∈ mergeParts inv parts,
      (m.part_name.isSome = true ↔ ∃ p ∈ parts, p.part_num = m.part_num) ∧
      (m.part_cat_id.isSome = true ↔ ∃ p ∈ parts, p.part_num = m.part_num) := by
  intro m hm
  simp only [mergeParts, List.mem_flatMap] at hm
  obtain ⟨u, hu, hmem⟩ := hm
  by_cases hE : (parts.filter fun p => p.part_num == u.part_num).isEmpty
  · rw [if_pos hE] at hmem
    have hnil : (parts.filter fun p => p.part_num == u.part_num) = [] :=
      List.isEmpty_iff.mp hE
    have hnone : ∀ p ∈ parts, p.part_num ≠ u.part_num := by
      intro p hp
      have := List.filter_eq_nil_iff.mp hnil p hp
      simpa using this
    rcases List.mem_singleton.mp hmem with rfl
    constructor <;>
      simp only [Option.isSome_none] <;>
      constructor <;>
      intro hx
    · exact absurd hx (by simp)
    · obtain ⟨p, hp, hpe⟩ := hx
      exact absurd hpe (hnone p hp)
    · exact absurd hx (by simp)
    · obtain ⟨p, hp, hpe⟩ := hx
      exact absurd hpe (hnone p hp)
  · rw [if_neg hE] at hmem
    rw [List.mem_map] at hmem
    obtain ⟨p, hpfil, rfl⟩ := hmem
    obtain ⟨hp, hbeq⟩ := List.mem_filter.mp hpfil
    have hpe : p.part_num = u.part_num := by simpa using hbeq
    constructor <;> simp only [Option.isSome_some, true_iff] <;>
      exact ⟨p, hp, hpe⟩

/-- The categories merge preserves the fields coming from the left side and
fills `part_cat_name` exactly when the (possibly null) category id has a
match in the categories table. -/
theorem mergeCategories_mem (ms : List M1) (cats : List PartCategory) :
    ∀ m ∈ mergeCategories ms cats,
      ∃ m1 ∈ ms, m.part_num = m1.part_num ∧ m.part_name = m1.part_name ∧
        m.part_cat_id = m1.part_cat_id ∧
        (m.part_cat_name.isSome = true ↔
          ∃ c ∈ cats, m1.part_cat_id = some c.id) := by
  intro m hm
  simp only [mergeCategories, List.mem_flatMap] at hm
  obtain ⟨m1, hm1, hmem⟩ := hm
  by_cases hE : (cats.filter fun c => m1.part_cat_id == some c.id).isEmpty
  · rw [if_pos hE] at hmem
    have hnil : (cats.filter fun c => m1.part_cat_id == some c.id) = [] :=
      List.isEmpty_iff.mp hE
    have hnone : ∀ c ∈ cats, m1.part_cat_id ≠ some c.id := by
      intro c hc
      have := List.filter_eq_nil_iff.mp hnil c hc
      simpa using this
    rcases List.mem_singleton.mp hmem with rfl
    refine ⟨m1, hm1, rfl, rfl, rfl, ?_⟩
    simp only [Option.isSome_none]
    constructor
    · intro hx; exact absurd hx (by simp)
    · intro hx
      obtain ⟨c, hc, hce⟩ := hx
      exact absurd hce (hnone c hc)
  · rw [if_neg hE] at hmem
    rw [List.mem_map] at hmem
    obtain ⟨c, hcfil, rfl⟩ := hmem
    obtain ⟨hc, hbeq⟩ := List.mem_filter.mp hcfil
    have hce : m1.part_cat_id = some c.id := by simpa using hbeq
    exact ⟨m1, hm1, rfl, rfl, rfl,
      ⟨fun _ => ⟨c, hc, hce⟩, fun _ => rfl⟩⟩

/-- The colors merge preserves all fields relevant to C5. -/
theorem mergeColors_mem (ms : List M2) (colors : List ColorRow) :
    ∀ m ∈ mergeColors ms colors,
      ∃ m2 ∈ ms, m.part_num = m2.part_num ∧ m.part_name = m2.part_name ∧
        m.part_cat_id = m2.part_cat_id ∧
        m.part_cat_name = m2.part_cat_name := by
  intro m hm
  simp only [mergeColors, List.mem_flatMap] at hm
  obtain ⟨m2, hm2, hmem⟩ := hm
  by_cases hE : (colors.filter fun c => m2.color_id == c.id).isEmpty
  · rw [if_pos hE] at hmem
    rcases List.mem_singleton.mp hmem with rfl
    exact ⟨m2, hm2, rfl, rfl, rfl, rfl⟩
  · rw [if_neg hE] at hmem
    rw [List.mem_map] at hmem
    obtain ⟨c, _, rfl⟩ := hmem
    exact ⟨m2, hm2, rfl, rfl, rfl, rfl⟩

/-- A unit piece whose part number matches nothing. -/
def uOrphan : UnitPiece :=
  { part_num := "9999x", color_id := 1, img_url := none }

/-- Counterexample to C5 as stated: against empty reference tables (one
possible combination of inputs) the joined dataset keeps the row but its
part name and part-category name are both null, so the unconditional
non-null invariant fails. -/
theorem join_nonnull_counterexample :
    ((legoPileEnriched [uOrphan] [] [] []).map fun m => m.part_name) =
      [none] ∧
    ((legoPileEnriched [uOrphan] [] [] []).map fun m => m.part_cat_name) =
      [none] := by
  exact ⟨rfl, rfl⟩

/-- C5 amended: the left joins retain every unit row, and a row's part name
(resp. part-category name) is non-null exactly when its part identifier has
a match in the parts table (resp. its category id, null for unmatched
parts, has a match in the categories table); unmatched keys leave the
descriptive fields null but keep the row. -/
theorem join_retains_and_null_iff (inv : List UnitPiece)
    (parts : List Part) (cats : List PartCategory)
    (colors : List ColorRow) :
    inv.length ≤ (legoPileEnriched inv parts cats colors).length ∧
    ∀ m ∈ legoPileEnriched inv parts cats colors,
      (m.part_name.isSome = true ↔ ∃ p ∈ parts, p.part_num = m.part_num) ∧
      (m.part_cat_name.isSome = true ↔
        ∃ c ∈ cats, m.part_cat_id = some c.id) := by
  constructor
  · have hbranch : ∀ {γ δ : Type} (hits : List γ) (f : γ → δ) (s : δ),
        1 ≤ (if hits.isEmpty then [s] else hits.map f).length := by
      intro γ δ hits f s
      by_cases hE : hits.isEmpty
      · rw [if_pos hE]
        exact le_refl 1
      · rw [if_neg hE, List.length_map]
        have : hits ≠ [] := fun hc => hE (by simp [hc])
        exact List.length_pos.mpr this
    have l1 : inv.length ≤ (mergeParts inv parts).length :=
      length_le_flatMap _ _ fun u _ => hbranch _ _ _
    have l2 : (mergeParts inv parts).length ≤
        (mergeCategories (mergeParts inv parts) cats).length :=
      length_le_flatMap _ _ fun m _ => hbranch _ _ _
    have l3 : (mergeCategories (mergeParts inv parts) cats).length ≤
        (mergeColors (mergeCategories (mergeParts inv parts) cats)
          colors).length :=
      length_le_flatMap _ _ fun m _ => hbranch _ _ _
    exact le_trans l1 (le_trans l2 l3)
  · intro m hm
    obtain ⟨m2, hm2, e1, e2, e3, e4⟩ := mergeColors_mem _ colors m hm
    obtain ⟨m1, hm1, f1, f2, f3, f4⟩ := mergeCategories_mem _ cats m2 hm2
    have g := mergeParts_mem inv parts m1 hm1
    constructor
    · rw [e2, f2, e1, f1]
      exact g.1
    · rw [e4, e3, f3]
      exact f4

/-- A unit piece, part row and category row that match up. -/
def uBrick : UnitPiece :=
  { part_num := "3001", color_id := 4, img_url := some "https://img/b.png" }

/-- The parts-table row matching `uBrick`. -/
def pBrick : Part :=
  { part_num := "3001", part_name := "Brick 2 x 4", part_cat_id := 11 }

/-- The category-table row matching `pBrick`. -/
def cBricks : PartCategory := { id := 11, part_cat_name := "Bricks" }

/-- The enriched row produced by joining `uBrick` with `pBrick` and
`cBricks` against an empty colors table. -/
def mBrickJoined : M3 :=
  { part_num := "3001", color_id := 4, img_url := some "https://img/b.png",
    part_name := some "Brick 2 x 4", part_cat_id := some 11,
    part_cat_name := some "Bricks", color_name := none, rgb := none }

/-- Witness for C5 (amended): with matching parts and categories rows the
joined row has non-null part name and part-category name. -/
theorem join_retains_and_null_iff_witness :
    mBrickJoined.part_name.isSome = true ∧
    mBrickJoined.part_cat_name.isSome = true := by
  have h := (join_retains_and_null_iff [uBrick] [pBrick] [cBricks] []).2
    mBrickJoined (by decide)
  exact ⟨h.1.mpr ⟨pBrick, by decide, by decide⟩,
    h.2.mpr ⟨cBricks, by decide, by decide⟩⟩

end LegoDemo
